import Mathlib

/-!
Verification development for the `adafruit_soundboard.py` driver
(`Soundboard` class).  The driver talks to an Adafruit FX sound board over a
line-oriented UART: it frames one-line commands, reads one-line responses,
recovers once per call by pulsing a reset pin, steps the volume by repeated
`+`/`-` commands, and enumerates the stored tracks either by the `L` listing
command or by probing each index with the play command.

The embedding below is a shallow model of that code:

* Python `bytes` values are `Bytes := List Char`; the helpers `pyStrip`,
  `splitB`, `pyInt`, `pyIndex` model `bytes.strip`, `bytes.split`, `int(...)`
  and Python list indexing (including negative indices).
* `intToBytes` models the module-level `int_to_bytes` function.
* The UART plus the attached device are modelled by a `Device` (a transition
  function fired by `UART.write`, plus a boot-banner function fired by a
  reset pulse) together with a buffer of pending input lines in the driver
  state `SB`.  `UART.readline` pops one buffered line and returns `none` on
  an empty buffer (a timeout); flushing empties the buffer.
* Instance state mirrors the Python attributes `_files`, `_sizes`,
  `_lengths`, `_track`, `_cur_vol`, `_cur_track`, `_reset_attempted`,
  `_sb_rst` (as a Bool: configured or not) plus the method-patching flag set
  by `use_alt_get_files`.  `resetCalls` is a ghost counter, incremented at
  every entry of `reset()`, used only to state how many reset attempts a
  call performs; it influences nothing.
* Python exceptions that escape a method are modelled with `Except PyErr`;
  exceptions the source catches (`AttributeError`/`AssertionError` around
  `readline`, `IndexError` in `file_name`, `KeyError` in `track_num`) are
  handled in place, as in the source.
* The mutually recursive methods (`_send_simple` calls `reset`, which calls
  the `vol` setter, which calls `vol_up`/`vol_down`, which call
  `_send_simple`) are defunctionalised into the single fueled interpreter
  `engine` over the `Call` tag type; each source method is one `Call` arm,
  transcribed line by line.  Fuel only bounds the recursion depth so that
  the definition is structural; `PyErr.outOfFuel` never occurs for the fuel
  values used in the theorems.
* The global `DEBUG` flag and the `sleep` delays only affect console output
  and timing and are dropped; `printif` calls are elided.
-/

namespace AdaSound

/-- Python `bytes` are modelled as lists of characters. -/
abbrev Bytes := List Char

/-- Convert a Lean string literal to `Bytes`. -/
def bs (s : String) : Bytes := s.toList

/-- Newline character appended to every command (`cmd + b'\n'`). -/
def nlc : Char := '\n'

/-- The whitespace set of Python `bytes.strip()`. -/
def isWs (c : Char) : Bool :=
  c = ' ' || c = '\t' || c = '\n' || c = '\r' || c = '\x0b' || c = '\x0c'

/-- `bytes.strip()`: drop whitespace from both ends. -/
def pyStrip (b : Bytes) : Bytes :=
  ((b.dropWhile isWs).reverse.dropWhile isWs).reverse

/-- `bytes.split(sep)` for a one-character separator, Python semantics:
splitting on every occurrence, keeping empty pieces. -/
def splitB (c : Char) : Bytes → List Bytes
  | [] => [[]]
  | x :: xs =>
      if x = c then [] :: splitB c xs
      else
        match splitB c xs with
        | [] => [[x]]
        | h :: t => (x :: h) :: t

/-- ASCII decimal digit test. -/
def isDigitB (c : Char) : Bool := 48 ≤ c.toNat && c.toNat ≤ 57

/-- All characters are ASCII digits. -/
def allDigits (b : Bytes) : Bool := b.all isDigitB

/-- Numeric value of a digit string. -/
def digitsVal (b : Bytes) : Nat := b.foldl (fun a c => 10 * a + (c.toNat - 48)) 0

/-- Python exceptions that can escape a modelled method.  `outOfFuel` is a
modelling artifact of the fueled interpreter, not a Python exception. -/
inductive PyErr where
  | attributeError
  | valueError
  | typeError
  | outOfFuel
deriving Repr, DecidableEq

/-- The Python values the modelled methods produce: `bytes`, `bool`,
`int`, an `(int, int)` tuple, or `None`. -/
inductive PyVal where
  | str (b : Bytes)
  | bool (b : Bool)
  | int (n : Int)
  | pair (a b : Int)
  | none
deriving Repr, DecidableEq

/-- Python truthiness for the values above (a tuple is always truthy). -/
def pyTruthy : PyVal → Bool
  | .str b => !b.isEmpty
  | .bool b => b
  | .int n => n ≠ 0
  | .pair _ _ => true
  | .none => false

/-- Digit-parsing of an already-stripped byte string: optional sign, then
at least one digit (helper for `pyInt`). -/
def pyIntCore : Bytes → Except PyErr Int
  | [] => .error .valueError
  | c :: rest =>
      if c = '-' then
        if !rest.isEmpty && allDigits rest then .ok (-(digitsVal rest : Int))
        else .error .valueError
      else if c = '+' then
        if !rest.isEmpty && allDigits rest then .ok (digitsVal rest : Int)
        else .error .valueError
      else if allDigits (c :: rest) then .ok (digitsVal (c :: rest) : Int)
      else .error .valueError

/-- `int(bytes)`: strip whitespace, optional sign, at least one digit. -/
def pyInt (b : Bytes) : Except PyErr Int := pyIntCore (pyStrip b)

/-- `int(x)` applied to a modelled Python value (`int(False)` is `0`). -/
def pyIntVal : PyVal → Except PyErr Int
  | .str b => pyInt b
  | .bool b => .ok (if b then 1 else 0)
  | .int n => .ok n
  | _ => .error .typeError

/-- The `nums` table of `int_to_bytes`: the decimal digit character for a
remainder (the argument is always `_ % 10`). -/
def digitChar : Nat → Char
  | 0 => '0' | 1 => '1' | 2 => '2' | 3 => '3' | 4 => '4'
  | 5 => '5' | 6 => '6' | 7 => '7' | 8 => '8' | _ => '9'

/-- Digit-accumulator of `int_to_bytes`: the `while num != 0` loop, with an
explicit fuel (the loop divides by ten each pass, so fuel `n` suffices for
input `n`). -/
def natToBytesAux : Nat → Nat → Bytes → Bytes
  | 0, _, acc => acc
  | f + 1, n, acc =>
      if n = 0 then acc
      else natToBytesAux f (n / 10) (digitChar (n % 10) :: acc)

/-- The digit string of a positive number (`natDigits 0 = []`). -/
def natDigits (n : Nat) : Bytes := natToBytesAux n n []

/-- `int_to_bytes(num)`: decimal representation with a `-` sign for
negative input and `b'0'` for zero. -/
def intToBytes (num : Int) : Bytes :=
  if num = 0 then bs "0"
  else if num < 0 then '-' :: natToBytesAux num.natAbs num.natAbs []
  else natToBytesAux num.toNat num.toNat []

/-- Python list indexing `l[n]` as used in `file_name`: non-negative
indices from the front, negative indices from the back, `none` standing for
`IndexError`. -/
def pyIndex (l : List α) (n : Int) : Option α :=
  if 0 ≤ n then l.get? n.toNat
  else
    let m : Int := n + l.length
    if 0 ≤ m then l.get? m.toNat else none

/-- Lookup in the `_track` dict, modelled as an association list with the
newest binding first (Python assignment overwrites, lookup sees the newest
value). -/
def lookupTrack (k : Bytes) : List (Bytes × Int) → Option Int
  | [] => none
  | (a, v) :: t => if a = k then some v else lookupTrack k t

/-- The external device behind the UART: `write` is fired by
`UART.write(line)` and yields the response lines the device buffers;
`reset` is fired by a reset pulse and yields the boot-banner lines. -/
structure Device (δ : Type) where
  write : δ → Bytes → δ × List Bytes
  reset : δ → δ × List Bytes

/-- The `Soundboard` instance state: UART input buffer, device state, the
cached catalog (`_files`, `_sizes`, `_lengths`, `_track`), session state
(`_cur_vol`, `_cur_track`, `_reset_attempted`), whether a reset pin was
configured (`_sb_rst is not None`), whether `_get_files` has been patched
to `_get_files_alt`, and the ghost reset counter. -/
structure SB (δ : Type) where
  buf : List Bytes
  dev : δ
  files : Option (List Bytes)
  sizes : Option (List Int)
  lengths : Option (List Int)
  track : List (Bytes × Int)
  curVol : Option Int
  curTrack : PyVal
  resetAttempted : Bool
  rstPin : Bool
  useAlt : Bool
  resetCalls : Nat
deriving Repr

/-- A freshly constructed instance (no catalog, unknown volume, no track,
no reset attempted yet). -/
def SB.init (d : δ) (rstPin : Bool) (useAlt : Bool) : SB δ :=
  { buf := [], dev := d, files := none, sizes := none, lengths := none,
    track := [], curVol := none, curTrack := .none, resetAttempted := false,
    rstPin := rstPin, useAlt := useAlt, resetCalls := 0 }

/-- `_flush_uart_input`: read until no data is left, i.e. empty the buffer
(the loop performs no writes). -/
def flushInput (s : SB δ) : SB δ := { s with buf := [] }

/-- `UART.readline()`: pop one buffered line, or time out (`none`). -/
def readline (s : SB δ) : Option Bytes × SB δ :=
  match s.buf with
  | [] => (none, s)
  | b :: rest => (some b, { s with buf := rest })

/-- `UART.write(b)`: fire the device, buffering its response lines. -/
def uartWrite (D : Device δ) (b : Bytes) (s : SB δ) : SB δ :=
  let p := D.write s.dev b
  { s with dev := p.1, buf := s.buf ++ p.2 }

/-- MIN_VOL. -/
def minVol : Int := 0
/-- MAX_VOL. -/
def maxVol : Int := 204

/-- The `check` argument of `_send_simple` at its three call shapes:
`None` (return the raw line), a `bytes` literal (`startswith` test), or a
truthy non-bytes value (`startswith` the command's first character). -/
inductive Check where
  | raw
  | lit (pat : Bytes)
  | byCmd
deriving Repr, DecidableEq

/-- `if sec: append(sec[1]) else: append(0)` in `_get_files_alt`:
a falsy result contributes `0`, a truthy tuple contributes its second
component (`sec[1]` on anything else would be a `TypeError`). -/
def metaVal (v : PyVal) : Except PyErr Int :=
  if pyTruthy v then
    match v with
    | .pair _ b => .ok b
    | _ => .error .typeError
  else .ok 0

/-- The defunctionalised call tags for the mutually recursive methods. -/
inductive Call where
  | send (cmd : Bytes) (check : Check) (strp : Bool)
  | rst
  | volGet
  | volSet (v : Option Int)
  | volUp (v : Option Int)
  | volDown (v : Option Int)
  | volUpLoop (target : Int)
  | volDownLoop (target : Int)
  | stop
  | trackTime
  | trackSize
  | filesAlt
  | filesAltLoop (i : Nat)
deriving Repr

/-- The fueled interpreter for the mutually recursive part of the class.
Each arm transcribes one Python method:

* `.send` is `_send_simple(cmd, check, strip)`;
* `.rst` is `reset()` (the ghost counter is bumped at entry);
* `.volGet` / `.volSet` are the `vol` property getter / setter
  (restricted to `None`/`int` arguments — no caller in the claims passes a
  float);
* `.volUp v` / `.volDown v` are `vol_up` / `vol_down`, with
  `.volUpLoop` / `.volDownLoop` their `while` loops;
* `.stop`, `.trackTime`, `.trackSize` are `stop()`, `track_time()`,
  `track_size()`;
* `.filesAlt` is `_get_files_alt()` with `.filesAltLoop` its
  `while True` loop.
Results use the conventions: `vol` getter returns `.int`, the setter and
the enumeration return `.none`, `reset` returns `.bool`. -/
def engine (D : Device δ) : Nat → Call → SB δ → Except PyErr (PyVal × SB δ)
  | 0, _, _ => .error .outOfFuel
  | fuel + 1, .send cmd0 check strp, s0 =>
      let s1 := flushInput s0
      let cmd := pyStrip cmd0
      let s2 := uartWrite D (cmd ++ [nlc]) s1
      let s3 := if cmd.length > 1 then (readline s2).2 else s2
      match readline s3 with
      | (none, s4) =>
          if s4.resetAttempted then .ok (.bool false, s4)
          else do
            let r ← engine D fuel .rst { s4 with resetAttempted := true }
            engine D fuel (.send cmd check true) r.2
      | (some m, s4) =>
          let msg := if strp then pyStrip m else m
          match check with
          | .raw => .ok (.str msg, s4)
          | .lit pat => .ok (.bool (pat.isPrefixOf msg), { s4 with resetAttempted := true })
          | .byCmd => .ok (.bool ((cmd.take 1).isPrefixOf msg), { s4 with resetAttempted := true })
  | fuel + 1, .rst, s0 =>
      let s1 := { s0 with resetCalls := s0.resetCalls + 1 }
      if s1.rstPin = false then .ok (.bool false, s1)
      else
        let p := D.reset s1.dev
        let s2 := { s1 with dev := p.1, buf := s1.buf ++ p.2 }
        match readline s2 with
        | (none, _) => .error .attributeError
        | (some _, s3) =>
            match readline s3 with
            | (none, _) => .error .attributeError
            | (some m2, s4) =>
                if (pyStrip m2).take 23 = bs "Adafruit FX Sound Board" then
                  match readline s4 with
                  | (none, _) => .error .attributeError
                  | (some _, s5) =>
                      match readline s5 with
                      | (none, _) => .error .attributeError
                      | (some _, s6) => do
                          let r ← engine D fuel (.volSet s6.curVol) s6
                          .ok (.bool true, { r.2 with curTrack := .none })
                else .ok (.bool false, s4)
  | fuel + 1, .volGet, s0 =>
      match s0.curVol with
      | some v => .ok (.int v, s0)
      | none => do
          let r ← engine D fuel (.volDown none) s0
          match r.2.curVol with
          | some v => .ok (.int v, r.2)
          | none => .error .typeError
  | fuel + 1, .volSet v?, s0 =>
      match v? with
      | none => .ok (.none, s0)
      | some n => do
          let r ← engine D fuel .volGet s0
          match r.1 with
          | .int cur =>
              if n > cur then do
                let r2 ← engine D fuel (.volUp (some n)) r.2
                .ok (.none, r2.2)
              else if n < cur then do
                let r2 ← engine D fuel (.volDown (some n)) r.2
                .ok (.none, r2.2)
              else .ok (.none, r.2)
          | _ => .error .typeError
  | fuel + 1, .volUp v?, s0 =>
      match v? with
      | none => do
          let r ← engine D fuel (.send (bs "+") .raw true) s0
          match pyIntVal r.1 with
          | .error e => .error e
          | .ok n => .ok (.int n, { r.2 with curVol := some n })
      | some v0 =>
          let v := if v0 > maxVol then maxVol else v0
          engine D fuel (.volUpLoop v) { s0 with curVol := some (minVol - 1) }
  | fuel + 1, .volDown v?, s0 =>
      match v? with
      | none => do
          let r ← engine D fuel (.send (bs "-") .raw true) s0
          match pyIntVal r.1 with
          | .error e => .error e
          | .ok n => .ok (.int n, { r.2 with curVol := some n })
      | some v0 =>
          let v := if v0 < minVol then minVol else v0
          engine D fuel (.volDownLoop v) { s0 with curVol := some (maxVol + 1) }
  | fuel + 1, .volUpLoop t, s0 =>
      match s0.curVol with
      | none => .error .typeError
      | some cur =>
          if t > cur then do
            let r ← engine D fuel (.send (bs "+") .raw true) s0
            match pyIntVal r.1 with
            | .error e => .error e
            | .ok n => engine D fuel (.volUpLoop t) { r.2 with curVol := some n }
          else .ok (.int cur, s0)
  | fuel + 1, .volDownLoop t, s0 =>
      match s0.curVol with
      | none => .error .typeError
      | some cur =>
          if t < cur then do
            let r ← engine D fuel (.send (bs "-") .raw true) s0
            match pyIntVal r.1 with
            | .error e => .error e
            | .ok n => engine D fuel (.volDownLoop t) { r.2 with curVol := some n }
          else .ok (.int cur, s0)
  | fuel + 1, .stop, s0 => do
      let r ← engine D fuel (.send (bs "q") .byCmd true) s0
      if pyTruthy r.1 then .ok (.none, (readline r.2).2)
      else .ok (.bool false, r.2)
  | fuel + 1, .trackTime, s0 => do
      let r ← engine D fuel (.send (bs "t") .raw true) s0
      if pyTruthy r.1 then
        match r.1 with
        | .str m =>
            if m.length = 11 then
              match splitB ':' m with
              | [a, b] =>
                  match pyInt a, pyInt b with
                  | .ok x, .ok y => .ok (.pair x y, r.2)
                  | .error e, _ => .error e
                  | _, .error e => .error e
              | _ => .error .valueError
            else .ok (.bool false, r.2)
        | _ => .error .typeError
      else .ok (.pair (-1) (-1), r.2)
  | fuel + 1, .trackSize, s0 => do
      let r ← engine D fuel (.send (bs "s") .raw true) s0
      if pyTruthy r.1 then
        match r.1 with
        | .str m =>
            if m.length = 21 then
              match splitB '/' m with
              | [a, b] =>
                  match pyInt a, pyInt b with
                  | .ok x, .ok y => .ok (.pair x y, r.2)
                  | .error e, _ => .error e
                  | _, .error e => .error e
              | _ => .error .valueError
            else .ok (.bool false, r.2)
        | _ => .error .typeError
      else .ok (.pair (-1) (-1), r.2)
  | fuel + 1, .filesAlt, s0 => do
      let r ← engine D fuel .volGet s0
      match r.1 with
      | .int v0 =>
          let s1 := { r.2 with files := some [], lengths := some [], sizes := some [] }
          do
            let r2 ← engine D fuel (.filesAltLoop 0) s1
            let r3 ← engine D fuel (.volSet (some v0)) r2.2
            .ok (.none, r3.2)
      | _ => .error .typeError
  | fuel + 1, .filesAltLoop i, s0 => do
      let _r1 ← engine D fuel .stop s0
      let r2 ← engine D fuel (.volSet (some 0)) _r1.2
      let r3 ← engine D fuel (.send (bs "#" ++ intToBytes (Int.ofNat i)) .raw true) r2.2
      match r3.1 with
      | .str m =>
          if m.take 6 = bs "NoFile" then .ok (.none, r3.2)
          else
            match splitB '\t' m with
            | [_, _, fname] =>
                let s4 := { r3.2 with
                              files := some ((r3.2.files.getD []) ++ [fname]),
                              track := (fname, (i : Int)) :: r3.2.track }
                do
                  let r5 ← engine D fuel .trackTime s4
                  let l ← metaVal r5.1
                  let s5 := { r5.2 with lengths := some ((r5.2.lengths.getD []) ++ [l]) }
                  let r6 ← engine D fuel .trackSize s5
                  let z ← metaVal r6.1
                  let s6 := { r6.2 with sizes := some ((r6.2.sizes.getD []) ++ [z]) }
                  engine D fuel (.filesAltLoop (i + 1)) s6
            | _ => .error .valueError
      | _ => .error .typeError

/-- The read loop of `_get_files`: each buffered line is stripped, split at
one tab into name and size, the size converted with `int(...)`; one track
is appended per line and the `_track` dict gains the binding `name ↦ i`. -/
def directLoop : List Bytes → Int → List Bytes → List Int → List (Bytes × Int) →
    Except PyErr (List Bytes × List Int × List (Bytes × Int))
  | [], _, fs, szs, tr => .ok (fs, szs, tr)
  | m :: rest, i, fs, szs, tr =>
      let msg := pyStrip m
      match splitB '\t' msg with
      | [fname, fsize] =>
          match pyInt fsize with
          | .error e => .error e
          | .ok n => directLoop rest (i + 1) (fs ++ [fname]) (szs ++ [n]) ((fname, i) :: tr)
      | _ => .error .valueError

/-- `_get_files()`: flush, reset `_files`/`_sizes` to empty lists, write
`L`, then consume every buffered response line with `directLoop`
(`_track` is extended, never cleared). -/
def getFilesDirect (D : Device δ) (s : SB δ) : Except PyErr (SB δ) :=
  let s1 := flushInput s
  let s2 := { s1 with files := some [], sizes := some [] }
  let s3 := uartWrite D (bs "L" ++ [nlc]) s2
  match directLoop s3.buf 0 [] [] s3.track with
  | .error e => .error e
  | .ok (fs, szs, tr) =>
      .ok { s3 with buf := [], files := some fs, sizes := some szs, track := tr }

/-- The patched `self._get_files()`: the original listing method, or
`_get_files_alt` once `use_alt_get_files` has been called. -/
def runGetFiles (D : Device δ) (fuel : Nat) (s : SB δ) : Except PyErr (SB δ) :=
  if s.useAlt then (engine D fuel .filesAlt s).map (fun r => r.2)
  else getFilesDirect D s

/-- The `files` property: build the catalog on first access, then reuse the
cache. -/
def filesProp (D : Device δ) (fuel : Nat) (s : SB δ) :
    Except PyErr (List Bytes × SB δ) :=
  match s.files with
  | some fs => .ok (fs, s)
  | none => do
      let s1 ← runGetFiles D fuel s
      .ok (s1.files.getD [], s1)

/-- The `sizes` property. -/
def sizesProp (D : Device δ) (fuel : Nat) (s : SB δ) :
    Except PyErr (List Int × SB δ) :=
  match s.sizes with
  | some zs => .ok (zs, s)
  | none => do
      let s1 ← runGetFiles D fuel s
      .ok (s1.sizes.getD [], s1)

/-- The `lengths` property; `_get_lengths` always runs `_get_files_alt`. -/
def lengthsProp (D : Device δ) (fuel : Nat) (s : SB δ) :
    Except PyErr (List Int × SB δ) :=
  match s.lengths with
  | some ls => .ok (ls, s)
  | none => do
      let r ← engine D fuel .filesAlt s
      .ok (r.2.lengths.getD [], r.2)

/-- `file_name(n)`: `self.files[n]`, with `IndexError` turned into
`False`. -/
def fileName (D : Device δ) (fuel : Nat) (n : Int) (s : SB δ) :
    Except PyErr (PyVal × SB δ) := do
  let r ← filesProp D fuel s
  match pyIndex r.1 n with
  | some b => .ok (.str b, r.2)
  | none => .ok (.bool false, r.2)

/-- `track_num(file_name)`: `self._track[file_name]`, with `KeyError`
turned into `False`. -/
def trackNum (name : Bytes) (s : SB δ) : PyVal :=
  match lookupTrack name s.track with
  | some i => .int i
  | none => .bool false

/-- `play(track)` for an index (`#<n>`) or a byte-string name (`P<name>`):
success iff the response starts with `b'play'`; only then is `_cur_track`
recorded (the bookkeeping value is the index, or the `track_num` lookup
result for a name). -/
def play (D : Device δ) (fuel : Nat) (t : Sum Int Bytes) (s : SB δ) :
    Except PyErr (PyVal × SB δ) :=
  let cn : Bytes × PyVal :=
    match t with
    | .inl i => (bs "#" ++ intToBytes i, .int i)
    | .inr nm => (bs "P" ++ nm, trackNum nm s)
  do
    let r ← engine D fuel (.send cn.1 (.lit (bs "play")) true) s
    if pyTruthy r.1 then .ok (.bool true, { r.2 with curTrack := cn.2 })
    else .ok (.bool false, r.2)

/-- `use_alt_get_files(now)`: patch `_get_files` to the alternate method,
delete the cached `files` list, and optionally re-enumerate at once. -/
def useAltGetFiles (D : Device δ) (fuel : Nat) (now : Bool) (s : SB δ) :
    Except PyErr (SB δ) :=
  let s1 := { s with useAlt := true, files := none }
  if now then (engine D fuel .filesAlt s1).map (fun r => r.2) else .ok s1

/-! ## Stub devices used by the theorems -/

/-- A scripted device: each `write` pops one pre-arranged response-line
list (an empty list is a timeout); a reset pulse yields a fixed banner. -/
def scriptDevice (banner : List Bytes) : Device (List (List Bytes)) :=
  { write := fun scr _ =>
      match scr with
      | [] => ([], [])
      | r :: rest => (rest, r),
    reset := fun scr => (scr, banner) }

/-- A device that never answers anything. -/
def deadDevice : Device Unit :=
  { write := fun _ _ => ((), []), reset := fun _ => ((), []) }

/-- One `+` step of the volume-stepping device. -/
def upStep (v : Int) : Int := if v + 2 > 204 then 204 else v + 2

/-- One `-` step of the volume-stepping device. -/
def downStep (v : Int) : Int := if v - 2 < 0 then 0 else v - 2

/-- A volume-stepping device: its state is the current level; `+` and `-`
move it by two, saturating at 204 and 0, and echo the new level. -/
def volDevice : Device Int :=
  { write := fun v b =>
      if b = bs "+" ++ [nlc] then (upStep v, [intToBytes (upStep v)])
      else if b = bs "-" ++ [nlc] then (downStep v, [intToBytes (downStep v)])
      else (v, []),
    reset := fun v => (v, []) }

/-- A device that times out on the first write and answers every later
write with `resp` (preceded by a command echo when the command is longer
than one character, which `_send_simple` gobbles). -/
def onceDevice (cmd resp : Bytes) : Device Nat :=
  { write := fun k _ =>
      (k + 1,
        if k = 0 then []
        else (if (pyStrip cmd).length > 1 then [pyStrip cmd] else []) ++ [resp]),
    reset := fun k => (k, []) }

/-- A device that answers the first write with `resp` (plus echo when
needed) and times out on every later write. -/
def okThenDeadDevice (cmd resp : Bytes) : Device Nat :=
  { write := fun k _ =>
      (k + 1,
        if k = 0 then
          (if (pyStrip cmd).length > 1 then [pyStrip cmd] else []) ++ [resp]
        else []),
    reset := fun k => (k, []) }

/-! ## Abbreviations used by the claim statements -/

/-- The value `_send_simple(cmd, check)` computes from a successfully read
response line `resp`. -/
def sendInterp (cmd : Bytes) (check : Check) (resp : Bytes) : PyVal :=
  match check with
  | .raw => .str resp
  | .lit pat => .bool (pat.isPrefixOf resp)
  | .byCmd => .bool (((pyStrip cmd).take 1).isPrefixOf resp)

/-- A name is clean when it is nonempty and free of whitespace and tabs,
so that a `"<name>\t<size>"` line survives `strip` and splits back into
exactly the name and the size. -/
def cleanName (b : Bytes) : Prop := b ≠ [] ∧ ∀ c ∈ b, isWs c = false ∧ c ≠ '\t'

instance (b : Bytes) : Decidable (cleanName b) := by
  unfold cleanName
  infer_instance

/-- One `"<name>\t<size>"` line of the `L` listing. -/
def encodeLine (p : Bytes × Nat) : Bytes := p.1 ++ '\t' :: intToBytes (Int.ofNat p.2)

/-- The `_track` dict entries produced by indexing `ns` from `i` upward,
oldest binding last (entries are pushed newest-first). -/
def indexedFrom (i : Int) : List Bytes → List (Bytes × Int)
  | [] => []
  | n :: ns => (n, i) :: indexedFrom (i + 1) ns

/-- A driver state whose catalog has been built: `_files` is `some fs` and
`_track` is `tr` (used to state pure `file_name`/`track_num` facts). -/
def builtState (fs : List Bytes) (tr : List (Bytes × Int)) : SB Unit :=
  { SB.init () false false with files := some fs, track := tr }

/-! ## Concrete scenario states -/

/-- C1 counterexample run: a command that succeeds (with a byte-literal
check), followed by the same command against a now-dead transport. -/
def c1CxTrace : Except PyErr (PyVal × Bool × PyVal × Nat) := do
  let d := okThenDeadDevice (bs "t") (bs "ok")
  let r1 ← engine d 10 (.send (bs "t") (.lit (bs "o")) true) (SB.init 0 false false)
  let r2 ← engine d 10 (.send (bs "t") (.lit (bs "o")) true) r1.2
  .ok (r1.1, r1.2.resetAttempted, r2.1, r2.2.resetCalls)

/-- C2 script: the `L` listing reports track `a` of size 1; the alternate
strategy (stop, play 0, time, size, stop, play 1) reports track `b` of
size 2. -/
def c2Script : List (List Bytes) :=
  [[bs "a\t1"],
   [bs "q", bs "done"], [bs "#0", bs "play\t0\tb"],
   [bs "00000:00002"], [bs "0000000001/0000000002"],
   [bs "q", bs "done"], [bs "#1", bs "NoFile"]]

/-- C2 trace: build the catalog with the Direct strategy, switch strategy,
then observe `sizes` (before any re-enumeration), `files` (which triggers
the alternate enumeration), `sizes` again, and the name→index map. -/
def c2Trace : Except PyErr (List Int × List Int × List Bytes × List Int × PyVal × PyVal) := do
  let D := scriptDevice []
  let s0 := { SB.init c2Script false false with curVol := some 0 }
  let r1 ← sizesProp D 40 s0
  let s1 ← useAltGetFiles D 40 false r1.2
  let r2 ← sizesProp D 40 s1
  let r3 ← filesProp D 40 r2.2
  let r4 ← sizesProp D 40 r3.2
  .ok (r1.1, r2.1, r3.1, r4.1, trackNum (bs "a") r4.2, trackNum (bs "b") r4.2)

/-- C6: a boot banner whose identity line is correct. -/
def goodBanner : List Bytes :=
  [bs "", bs "Adafruit FX Sound Board 9/10/14", bs "FAT16", bs "10 files"]

/-- C6: a boot banner whose identity line does not match. -/
def badBanner : List Bytes := [bs "", bs "something else", bs "FAT16", bs "10 files"]

/-- C6: a boot banner that stops after the first line (the next
`readline` times out). -/
def shortBanner : List Bytes := [bs ""]

/-- C7 script (volume echoes are scripted like every other response):
stop, two down-steps to 0, play 0 (one track `a`), a malformed 7-character
time response, an absent size response, stop, `NoFile` at index 1, two
up-steps restoring the volume, and a leftover entry that enumeration must
not consume. -/
def c7Script : List (List Bytes) :=
  [[bs "q", bs "done"], [bs "2"], [bs "0"],
   [bs "#0", bs "play\t0\ta"], [bs "123:456"], [],
   [bs "q", bs "done"], [bs "#1", bs "NoFileXYZ"],
   [bs "2"], [bs "4"], [bs "leftover"]]

/-- C7 zero-track script: the very first probe answers `NoFile`. -/
def c7ZeroScript : List (List Bytes) :=
  [[bs "q", bs "done"], [bs "2"], [bs "0"],
   [bs "#0", bs "NoFile"], [bs "2"], [bs "4"], [bs "leftover"]]

/-- C7 run on `c7Script`, starting from a known volume of 4. -/
def c7Run : Except PyErr (PyVal × SB (List (List Bytes))) :=
  engine (scriptDevice []) 40 .filesAlt
    { SB.init c7Script false true with curVol := some 4 }

/-- C7 run on `c7ZeroScript`, starting from a known volume of 4. -/
def c7ZeroRun : Except PyErr (PyVal × SB (List (List Bytes))) :=
  engine (scriptDevice []) 40 .filesAlt
    { SB.init c7ZeroScript false true with curVol := some 4 }

/-! ## Byte-string lemmas -/

theorem dropWhile_cons_of_false {p : Char → Bool} {a : Char} {l : Bytes}
    (h : p a = false) : List.dropWhile p (a :: l) = a :: l := by
  simp [List.dropWhile_cons, h]

theorem dropWhile_eq_self_of_all {p : Char → Bool} {l : Bytes}
    (h : ∀ c ∈ l, p c = false) : List.dropWhile p l = l := by
  cases l with
  | nil => rfl
  | cons a t => exact dropWhile_cons_of_false (h a (by simp))

theorem pyStrip_eq_self_of_all {l : Bytes} (h : ∀ c ∈ l, isWs c = false) :
    pyStrip l = l := by
  unfold pyStrip
  rw [dropWhile_eq_self_of_all h,
      dropWhile_eq_self_of_all (fun c hc => h c (List.mem_reverse.mp hc)),
      List.reverse_reverse]

theorem pyStrip_anchored {a z : Char} {mid : Bytes}
    (ha : isWs a = false) (hz : isWs z = false) :
    pyStrip (a :: (mid ++ [z])) = a :: (mid ++ [z]) := by
  unfold pyStrip
  rw [dropWhile_cons_of_false ha]
  have hrev : (a :: (mid ++ [z])).reverse = z :: (mid.reverse ++ [a]) := by simp
  rw [hrev, dropWhile_cons_of_false hz]
  simp

theorem digitChar_isDigit (m : Nat) : isDigitB (digitChar m) = true := by
  unfold digitChar
  split <;> decide

theorem digitChar_val {m : Nat} (h : m < 10) : (digitChar m).toNat - 48 = m := by
  interval_cases m <;> rfl

theorem not_ws_of_digit {c : Char} (h : isDigitB c = true) : isWs c = false := by
  have h' : 48 ≤ c.toNat ∧ c.toNat ≤ 57 := by
    simpa [isDigitB, Bool.and_eq_true, decide_eq_true_eq] using h
  simp only [isWs, Bool.or_eq_false_iff, decide_eq_false_iff_not]
  refine ⟨⟨⟨⟨⟨?_, ?_⟩, ?_⟩, ?_⟩, ?_⟩, ?_⟩ <;>
    (intro he; rw [he] at h'; exact absurd h' (by decide))

theorem digit_ne {c z : Char} (h : isDigitB c = true) (hz : isDigitB z = false) :
    c ≠ z := by
  intro he
  rw [he] at h
  rw [h] at hz
  cases hz

theorem allDigits_mem {b : Bytes} (h : allDigits b = true) {c : Char} (hc : c ∈ b) :
    isDigitB c = true := by
  have hall := List.all_eq_true.mp h
  simpa using hall c hc

theorem pyStrip_digits {b : Bytes} (h : allDigits b = true) : pyStrip b = b :=
  pyStrip_eq_self_of_all (fun c hc => not_ws_of_digit (allDigits_mem h hc))

theorem pyInt_digits {b : Bytes} (hne : b ≠ []) (hd : allDigits b = true) :
    pyInt b = .ok (digitsVal b : Int) := by
  unfold pyInt
  rw [pyStrip_digits hd]
  cases b with
  | nil => exact absurd rfl hne
  | cons c rest =>
      have hcd : isDigitB c = true := allDigits_mem hd (by simp)
      rw [pyIntCore, if_neg (digit_ne hcd (by decide) : c ≠ '-'),
          if_neg (digit_ne hcd (by decide) : c ≠ '+'),
          if_pos hd]

/-! ## `int_to_bytes` round-trip lemmas -/

theorem natToBytesAux_eq_digits :
    ∀ (f : Nat) (g n : Nat) (acc : Bytes), n ≤ g → g ≤ f →
      natToBytesAux g n acc = natDigits n ++ acc := by
  intro f
  induction f with
  | zero =>
      intro g n acc h1 h2
      have hg : g = 0 := Nat.le_zero.mp h2
      have hn : n = 0 := by omega
      subst hg; subst hn
      rfl
  | succ f ih =>
      intro g n acc h1 h2
      match g with
      | 0 =>
          have hn : n = 0 := by omega
          subst hn
          rfl
      | g' + 1 =>
          by_cases hn : n = 0
          · subst hn
            simp [natToBytesAux, natDigits]
          · have hdiv : n / 10 < n := Nat.div_lt_self (by omega) (by omega)
            have step : natToBytesAux (g' + 1) n acc =
                natToBytesAux g' (n / 10) (digitChar (n % 10) :: acc) := by
              simp [natToBytesAux, hn]
            rw [step, ih g' (n / 10) _ (by omega) (by omega)]
            have hn1 : ∃ m, n = m + 1 := ⟨n - 1, by omega⟩
            obtain ⟨m, rfl⟩ := hn1
            have step2 : natDigits (m + 1) =
                natToBytesAux m ((m + 1) / 10) [digitChar ((m + 1) % 10)] := by
              simp [natDigits, natToBytesAux]
            rw [step2, ih m ((m + 1) / 10) _ (by omega) (by omega)]
            simp

theorem natDigits_succ {n : Nat} (hn : n ≠ 0) :
    natDigits n = natDigits (n / 10) ++ [digitChar (n % 10)] := by
  obtain ⟨m, rfl⟩ : ∃ m, n = m + 1 := ⟨n - 1, by omega⟩
  have hdiv : (m + 1) / 10 < m + 1 := Nat.div_lt_self (by omega) (by omega)
  have step : natDigits (m + 1) =
      natToBytesAux m ((m + 1) / 10) [digitChar ((m + 1) % 10)] := by
    simp [natDigits, natToBytesAux]
  rw [step, natToBytesAux_eq_digits m m ((m + 1) / 10) _ (by omega) (le_refl m)]

theorem allDigits_natToBytesAux :
    ∀ (f n : Nat) (acc : Bytes), allDigits acc = true →
      allDigits (natToBytesAux f n acc) = true := by
  intro f
  induction f with
  | zero => intro n acc h; exact h
  | succ f ih =>
      intro n acc h
      by_cases hn : n = 0
      · subst hn; simpa [natToBytesAux] using h
      · have step : natToBytesAux (f + 1) n acc =
            natToBytesAux f (n / 10) (digitChar (n % 10) :: acc) := by
          simp [natToBytesAux, hn]
        rw [step]
        refine ih (n / 10) _ ?_
        simp only [allDigits, List.all_cons, digitChar_isDigit, Bool.true_and]
        exact h

theorem allDigits_natDigits (n : Nat) : allDigits (natDigits n) = true :=
  allDigits_natToBytesAux n n [] rfl

theorem natDigits_ne_nil {n : Nat} (hn : n ≠ 0) : natDigits n ≠ [] := by
  rw [natDigits_succ hn]
  simp

theorem digitsVal_concat (l : Bytes) (c : Char) :
    digitsVal (l ++ [c]) = 10 * digitsVal l + (c.toNat - 48) := by
  simp [digitsVal, List.foldl_append]

theorem digitsVal_natDigits : ∀ n : Nat, digitsVal (natDigits n) = n := by
  intro n
  induction n using Nat.strong_induction_on with
  | _ n ih =>
      by_cases hn : n = 0
      · subst hn; rfl
      · rw [natDigits_succ hn, digitsVal_concat,
            ih (n / 10) (Nat.div_lt_self (by omega) (by omega)),
            digitChar_val (Nat.mod_lt _ (by omega))]
        omega

theorem pyInt_natDigits {n : Nat} (hn : n ≠ 0) : pyInt (natDigits n) = .ok (n : Int) := by
  rw [pyInt_digits (natDigits_ne_nil hn) (allDigits_natDigits n), digitsVal_natDigits]

theorem intToBytes_ofNat (n : Nat) :
    intToBytes (Int.ofNat n) = if n = 0 then bs "0" else natDigits n := by
  by_cases hn : n = 0
  · subst hn; rfl
  · rw [if_neg hn]
    unfold intToBytes
    rw [if_neg (by simpa using hn : ¬(Int.ofNat n = 0)),
        if_neg (by rw [Int.not_lt]; exact Int.ofNat_nonneg n)]
    simp [natDigits]

theorem pyInt_intToBytes (n : Nat) : pyInt (intToBytes (Int.ofNat n)) = .ok (n : Int) := by
  rw [intToBytes_ofNat]
  by_cases hn : n = 0
  · subst hn; rfl
  · rw [if_neg hn]; exact pyInt_natDigits hn

theorem allDigits_intToBytes_ofNat (n : Nat) :
    allDigits (intToBytes (Int.ofNat n)) = true := by
  rw [intToBytes_ofNat]
  by_cases hn : n = 0
  · subst hn; rfl
  · rw [if_neg hn]; exact allDigits_natDigits n

theorem intToBytes_ofNat_ne_nil (n : Nat) : intToBytes (Int.ofNat n) ≠ [] := by
  rw [intToBytes_ofNat]
  by_cases hn : n = 0
  · subst hn; simp [bs]
  · rw [if_neg hn]; exact natDigits_ne_nil hn

theorem allDigits_intToBytes_nonneg {v : Int} (h : 0 ≤ v) :
    allDigits (intToBytes v) = true := by
  have hv : v = Int.ofNat v.toNat := by
    rw [Int.ofNat_eq_coe, Int.toNat_of_nonneg h]
  rw [hv]
  exact allDigits_intToBytes_ofNat v.toNat

theorem pyInt_intToBytes_nonneg {v : Int} (h : 0 ≤ v) :
    pyInt (intToBytes v) = .ok v := by
  have hv : v = Int.ofNat v.toNat := by
    rw [Int.ofNat_eq_coe, Int.toNat_of_nonneg h]
  rw [hv, pyInt_intToBytes]
  rfl

theorem intToBytes_nonneg_ne_nil {v : Int} (h : 0 ≤ v) : intToBytes v ≠ [] := by
  have hv : v = Int.ofNat v.toNat := by
    rw [Int.ofNat_eq_coe, Int.toNat_of_nonneg h]
  rw [hv]
  exact intToBytes_ofNat_ne_nil v.toNat

/-! ## `splitB` lemmas -/

theorem splitB_not_mem {c : Char} : ∀ {l : Bytes}, c ∉ l → splitB c l = [l] := by
  intro l
  induction l with
  | nil => intro _; rfl
  | cons x xs ih =>
      intro h
      have hx : ¬x = c := by
        intro he
        exact h (by simp [he])
      rw [splitB, if_neg hx, ih (fun hc => h (List.mem_cons_of_mem _ hc))]

theorem splitB_append {c : Char} :
    ∀ {a : Bytes}, c ∉ a → ∀ b, splitB c (a ++ c :: b) = a :: splitB c b := by
  intro a
  induction a with
  | nil =>
      intro _ b
      show splitB c (c :: b) = [] :: splitB c b
      rw [splitB, if_pos rfl]
  | cons x xs ih =>
      intro h b
      have hx : ¬x = c := by
        intro he
        exact h (by simp [he])
      show splitB c (x :: (xs ++ c :: b)) = (x :: xs) :: splitB c b
      rw [splitB, if_neg hx, ih (fun hc => h (List.mem_cons_of_mem _ hc)) b]

theorem splitB_sep {c : Char} {a b : Bytes} (ha : c ∉ a) (hb : c ∉ b) :
    splitB c (a ++ c :: b) = [a, b] := by
  rw [splitB_append ha b, splitB_not_mem hb]

theorem not_mem_of_allDigits {c : Char} {b : Bytes}
    (hb : allDigits b = true) (hc : isDigitB c = false) : c ∉ b := by
  intro hmem
  have := allDigits_mem hb hmem
  rw [this] at hc
  cases hc

/-- Stability of `strip` on a glued line `x ++ c :: y` whose left part is
whitespace-free and nonempty and whose right part is a nonempty digit
string. -/
theorem pyStrip_glue {x y : Bytes} (c : Char)
    (hx : ∀ ch ∈ x, isWs ch = false) (hnex : x ≠ [])
    (hy : allDigits y = true) (hney : y ≠ []) :
    pyStrip (x ++ c :: y) = x ++ c :: y := by
  obtain ⟨a, r1, rfl⟩ := List.exists_cons_of_ne_nil hnex
  rcases y.eq_nil_or_concat with hnil | ⟨L, e, rfl⟩
  · exact absurd hnil hney
  · have he : isWs e = false := by
      refine not_ws_of_digit (allDigits_mem hy ?_)
      simp [List.concat_eq_append]
    have ha : isWs a = false := hx a (by simp)
    have hsh : (a :: r1) ++ c :: L.concat e = a :: ((r1 ++ c :: L) ++ [e]) := by
      simp [List.concat_eq_append]
    rw [hsh, pyStrip_anchored ha he, ← hsh]

/-! ## `_track` lookup lemmas -/

theorem lookupTrack_append_of_not_mem {k : Bytes} :
    ∀ {l1 : List (Bytes × Int)}, k ∉ l1.map Prod.fst →
      ∀ l2, lookupTrack k (l1 ++ l2) = lookupTrack k l2 := by
  intro l1
  induction l1 with
  | nil => intro _ l2; rfl
  | cons p t ih =>
      intro h l2
      have hp : ¬p.1 = k := by
        intro he
        exact h (by simp [he])
      obtain ⟨a, v⟩ := p
      show lookupTrack k ((a, v) :: (t ++ l2)) = lookupTrack k l2
      rw [lookupTrack, if_neg hp, ih (fun hc => h (by simp [hc])) l2]

theorem indexedFrom_map_fst : ∀ (ns : List Bytes) (i : Int),
    (indexedFrom i ns).map Prod.fst = ns := by
  intro ns
  induction ns with
  | nil => intro i; rfl
  | cons n rest ih => intro i; simp [indexedFrom, ih]

theorem lookup_indexedFrom :
    ∀ {ns : List Bytes}, ns.Nodup →
      ∀ (b : Int) (old : List (Bytes × Int)) (j : Nat) (nm : Bytes),
        ns.get? j = some nm →
        lookupTrack nm ((indexedFrom b ns).reverse ++ old) = some (b + j) := by
  intro ns
  induction ns with
  | nil => intro _ b old j nm hj; simp at hj
  | cons n rest ih =>
      intro hnd b old j nm hj
      obtain ⟨hn, hrest⟩ := List.nodup_cons.mp hnd
      have hsh : ((indexedFrom b (n :: rest)).reverse ++ old) =
          (indexedFrom (b + 1) rest).reverse ++ ((n, b) :: old) := by
        simp [indexedFrom, List.reverse_cons, List.append_assoc]
      rw [hsh]
      cases j with
      | zero =>
          have hnm : nm = n := by simpa using hj.symm
          subst hnm
          rw [lookupTrack_append_of_not_mem ?_ ((nm, b) :: old)]
          · rw [lookupTrack, if_pos rfl]
            simp
          · rw [List.map_reverse, indexedFrom_map_fst]
            simpa using hn
      | succ j' =>
          have hj' : rest.get? j' = some nm := by simpa using hj
          have := ih hrest (b + 1) ((n, b) :: old) j' nm hj'
          rw [this]
          congr 1
          push_cast
          ring

/-! ## Python indexing lemma -/

theorem pyIndex_ofNat (l : List α) (i : Nat) :
    pyIndex l (Int.ofNat i) = l.get? i := by
  rw [pyIndex, if_pos (show (0 : Int) ≤ Int.ofNat i from Int.ofNat_nonneg i)]
  rfl

/-! ## `_get_files` listing loop -/

theorem directLoop_spec :
    ∀ (ps : List (Bytes × Nat)), (∀ p ∈ ps, cleanName p.1) →
      ∀ (i : Int) (fs : List Bytes) (szs : List Int) (tr : List (Bytes × Int)),
        directLoop (ps.map encodeLine) i fs szs tr =
          .ok (fs ++ ps.map Prod.fst, szs ++ ps.map (fun p => ((p.2 : Nat) : Int)),
               (indexedFrom i (ps.map Prod.fst)).reverse ++ tr) := by
  intro ps
  induction ps with
  | nil => intro _ i fs szs tr; simp [directLoop, indexedFrom]
  | cons p rest ih =>
      intro hcl i fs szs tr
      obtain ⟨nm, sz⟩ := p
      obtain ⟨hne, hwc⟩ := hcl (nm, sz) (by simp)
      have hstrip : pyStrip (encodeLine (nm, sz)) = encodeLine (nm, sz) := by
        exact pyStrip_glue '\t' (fun ch hch => (hwc ch hch).1) hne
          (allDigits_intToBytes_ofNat sz) (intToBytes_ofNat_ne_nil sz)
      have hsplit : splitB '\t' (encodeLine (nm, sz)) = [nm, intToBytes (Int.ofNat sz)] := by
        refine splitB_sep (fun hmem => ?_) ?_
        · exact absurd rfl ((hwc '\t' hmem).2)
        · exact not_mem_of_allDigits (allDigits_intToBytes_ofNat sz) (by decide)
      show directLoop (encodeLine (nm, sz) :: rest.map encodeLine) i fs szs tr = _
      rw [directLoop, hstrip, hsplit]
      simp only [pyInt_intToBytes]
      rw [ih (fun q hq => hcl q (by simp [hq])) (i + 1) (fs ++ [nm]) (szs ++ [(sz : Int)])
          ((nm, i) :: tr)]
      simp [indexedFrom, List.reverse_cons, List.append_assoc]

/-! ## `_send_simple` recovery-policy lemmas -/

theorem except_bind_ok (a : α) (f : α → Except PyErr β) :
    (Except.ok a >>= f) = f a := rfl

theorem except_map_ok (f : α → β) (a : α) :
    (Except.ok a : Except PyErr α).map f = Except.ok (f a) := rfl

/-- Against a transport that never answers and with no reset line
configured, any `_send_simple` call returns `False` after exactly one
reset attempt (the flag blocks the second). -/
theorem send_dead_fresh (fuel : Nat) (cmd : Bytes) (check : Check) (strp : Bool) :
    engine deadDevice (fuel + 2) (.send cmd check strp) (SB.init () false false) =
      .ok (.bool false,
        { SB.init () false false with resetAttempted := true, resetCalls := 1 }) := by
  by_cases hl : (pyStrip cmd).length > 1 <;>
    simp [engine, flushInput, uartWrite, readline, deadDevice, SB.init, hl,
      except_bind_ok]

/-- Against a transport that times out once and then answers `resp`, a
fresh `_send_simple` call performs exactly one reset attempt and then
completes with the normal interpretation of `resp`. -/
theorem send_once (fuel : Nat) (cmd resp : Bytes) (check : Check)
    (hc : pyStrip cmd = cmd) (hr : pyStrip resp = resp) :
    engine (onceDevice cmd resp) (fuel + 2) (.send cmd check true)
        (SB.init 0 false false) =
      .ok (sendInterp cmd check resp,
        { SB.init 0 false false with
            dev := 2, resetAttempted := true, resetCalls := 1 }) := by
  by_cases hl : cmd.length > 1 <;>
    cases check <;>
      simp [engine, flushInput, uartWrite, readline, onceDevice, SB.init, hc, hl, hr,
        sendInterp, except_bind_ok]

/-- A `_send_simple` call that succeeds with a byte-literal check leaves
`resetAttempted = true`; a following call whose reads all time out then
returns `False` without any reset attempt. -/
theorem send_okThenDead (fuel : Nat) (cmd resp pat : Bytes)
    (hc : pyStrip cmd = cmd) (hr : pyStrip resp = resp) :
    engine (okThenDeadDevice cmd resp) (fuel + 2) (.send cmd (.lit pat) true)
        (SB.init 0 false false) =
      .ok (.bool (pat.isPrefixOf resp),
        { SB.init 0 false false with dev := 1, resetAttempted := true }) ∧
    engine (okThenDeadDevice cmd resp) (fuel + 2) (.send cmd (.lit pat) true)
        { SB.init 0 false false with dev := 1, resetAttempted := true } =
      .ok (.bool false,
        { SB.init 0 false false with dev := 2, resetAttempted := true }) := by
  constructor <;>
    (by_cases hl : cmd.length > 1 <;>
      simp [engine, flushInput, uartWrite, readline, okThenDeadDevice, SB.init, hc, hl,
        hr, except_bind_ok])

/-! ## Claim theorems -/

/-- C1, counterexample.  The claim says that after any successful read the
`reset_attempted` flag is cleared, so that a later, independent failing
call may again trigger one reset.  In the code the flag is *set* after a
successful checked read (`self._reset_attempted = True`, line 213) and is
never cleared: concretely, a command that succeeds with a byte-literal
check leaves `resetAttempted = true`, and the next command, whose reads
all time out, returns `False` after performing *zero* reset attempts. -/
theorem c1_counterexample :
    c1CxTrace = .ok (.bool true, true, .bool false, 0) := by rfl

/-- C2, counterexample.  The claim says switching the enumeration strategy
invalidates the cached catalog wholesale.  In the code `use_alt_get_files`
only deletes `_files`: with a stub transport whose Direct listing is track
`a` of size 1 and whose probe-by-playback data is track `b` of size 2,
accessing `sizes` right after the switch still returns `[1]` — the prior
generation's data, not the new strategy's `[2]` — and after `files` does
re-enumerate, the name→index map still answers for the stale name `a`. -/
theorem c2_counterexample :
    c2Trace = .ok ([1], [1], [bs "b"], [2], .int 0, .int 0) ∧
      ([1] : List Int) ≠ [2] := by
  constructor
  · rfl
  · decide

/-- C2, amended: switching the enumeration strategy invalidates only the
cached `files` list; the cached `sizes` (and `lengths`) and the name→index
map survive the switch, so a `sizes` access after the switch serves the
prior strategy's generation without re-enumerating, and even after a
`files` access rebuilds the catalog with the new strategy the name→index
map still contains the prior generation's entries alongside the new ones.
The trace shows: Direct build gives sizes `[1]`; after the switch `sizes`
is still `[1]`; `files` then yields the alternate strategy's `[b]` and
`sizes` becomes `[2]`; both the stale `a` and the fresh `b` resolve in the
map. -/
theorem c2_amended :
    c2Trace = .ok ([1], [1], [bs "b"], [2], .int 0, .int 0) := by rfl

/-- C3, counterexample.  The claim says a malformed track line during
enumeration never raises.  In the code `_get_files` unpacks
`msg.split(b'\t')` into two variables, so a listing line with no tab
(here `b'noTab'`) raises `ValueError` instead of producing a sentinel. -/
theorem c3_counterexample :
    getFilesDirect (scriptDevice []) (SB.init [[bs "noTab"]] false false) =
      .error .valueError := by rfl

/-- C3, amended: failed commands and an unresponsive device surface as
`False` from `_send_simple` (shown here for every command and check mode
against a transport that never answers, with no reset line configured),
but a malformed track line during direct enumeration raises `ValueError`
rather than returning a sentinel. -/
theorem c3_amended :
    (∀ (cmd : Bytes) (check : Check) (strp : Bool),
        engine deadDevice 6 (.send cmd check strp) (SB.init () false false) =
          .ok (.bool false,
            { SB.init () false false with resetAttempted := true, resetCalls := 1 })) ∧
      getFilesDirect (scriptDevice []) (SB.init [[bs "noTab"]] false false) =
        .error .valueError := by
  constructor
  · intro cmd check strp
    exact send_dead_fresh 4 cmd check strp
  · rfl

/-- C6.  `reset()` with no configured reset line returns `False` without
touching the transport (only the ghost attempt counter changes); with a
correct banner it returns `True`, clears `_cur_track` and leaves the
captured volume in place (re-applying it is a no-op because the setter
compares the target against the same cached value); with a wrong identity
line it returns `False` leaving session state alone.  But on a banner read
that times out, `self._uart.readline().strip()` raises `AttributeError`
instead of returning `False` — the code bug this claim exposes. -/
theorem c6_reset :
    (engine deadDevice 10 .rst { SB.init () false false with curVol := some 50 } =
        .ok (.bool false,
          { SB.init () false false with curVol := some 50, resetCalls := 1 })) ∧
    (engine (scriptDevice goodBanner) 10 .rst
        { SB.init ([] : List (List Bytes)) true false with
            curVol := some 50, curTrack := .int 3 } =
      .ok (.bool true,
        { SB.init ([] : List (List Bytes)) true false with
            curVol := some 50, curTrack := .none, resetCalls := 1 })) ∧
    (engine (scriptDevice badBanner) 10 .rst
        { SB.init ([] : List (List Bytes)) true false with
            curVol := some 50, curTrack := .int 3 } =
      .ok (.bool false,
        { SB.init ([] : List (List Bytes)) true false with
            curVol := some 50, curTrack := .int 3, resetCalls := 1,
            buf := [bs "FAT16", bs "10 files"] })) ∧
    (engine (scriptDevice shortBanner) 10 .rst
        { SB.init ([] : List (List Bytes)) true false with curVol := some 50 } =
      .error .attributeError) := by
  exact ⟨rfl, rfl, rfl, rfl⟩

/-- C7, counterexample.  The claim says a track's length and size default
to 0 on malformed *or absent* time/size responses.  A malformed (wrong
width) response does default to 0, but an absent response makes
`track_time`/`track_size` return the truthy tuple `(-1, -1)`, whose second
component `-1` is appended: in the scripted run the probed track's size
list ends up `[-1]`, not `[0]`. -/
theorem c7_counterexample :
    (c7Run.map fun r => r.2.sizes) = .ok (some [-1]) := by rfl

/-- C7, amended: probe-by-playback terminates strictly at the first
response beginning with `NoFile` (the scripted leftover entry after it is
never consumed), registers one track per preceding well-formed play
response, defaults length/size to 0 on a *malformed* (wrong-width)
time/size response but records `-1` (the second component of the
`(-1,-1)` no-data sentinel) on an *absent* one, and restores the
pre-probe volume exactly once enumeration stops, also when zero tracks
were found. -/
theorem c7_amended :
    (c7Run.map fun r =>
        (r.2.files, r.2.lengths, r.2.sizes, r.2.curVol, r.2.dev)) =
      .ok (some [bs "a"], some [0], some [-1], some 4, [[bs "leftover"]]) ∧
    (c7ZeroRun.map fun r => (r.2.files, r.2.curVol, r.2.dev)) =
      .ok (some [], some 4, [[bs "leftover"]]) := by
  exact ⟨rfl, rfl⟩

/-- C9, counterexample.  The claim says `track_time()` returns `(-1,-1)`
when the transport yields no data.  That holds only when the one-shot
recovery cannot itself crash: with a configured reset line and a fully
dead transport, the failed read triggers `reset()`, whose banner
`readline().strip()` raises `AttributeError`, so `track_time()` raises
instead of returning the sentinel. -/
theorem c9_counterexample :
    engine deadDevice 10 .trackTime (SB.init () true false) =
      .error .attributeError := by rfl

/-- C1, amended: the reset-and-retry escalation is bounded to at most one
reset attempt per outermost call, but with these corrections forced by the
code: (i) with a transport that times out once then succeeds, a fresh call
completes with the normal interpretation of the response after exactly one
reset attempt; (ii) with a transport that always times out and no reset
line configured, a fresh call returns `False` after exactly one reset
attempt, never more; (iii) after a successful read with a boolean check
the `reset_attempted` flag is *set* (not cleared), so a later, independent
call that fails returns `False` immediately, with zero further reset
attempts. -/
theorem c1_amended :
    (∀ (fuel : Nat) (cmd resp : Bytes) (check : Check),
        pyStrip cmd = cmd → pyStrip resp = resp →
        engine (onceDevice cmd resp) (fuel + 2) (.send cmd check true)
            (SB.init 0 false false) =
          .ok (sendInterp cmd check resp,
            { SB.init 0 false false with
                dev := 2, resetAttempted := true, resetCalls := 1 })) ∧
    (∀ (fuel : Nat) (cmd : Bytes) (check : Check) (strp : Bool),
        engine deadDevice (fuel + 2) (.send cmd check strp) (SB.init () false false) =
          .ok (.bool false,
            { SB.init () false false with resetAttempted := true, resetCalls := 1 })) ∧
    (∀ (fuel : Nat) (cmd resp pat : Bytes),
        pyStrip cmd = cmd → pyStrip resp = resp →
        engine (okThenDeadDevice cmd resp) (fuel + 2) (.send cmd (.lit pat) true)
            (SB.init 0 false false) =
          .ok (.bool (pat.isPrefixOf resp),
            { SB.init 0 false false with dev := 1, resetAttempted := true }) ∧
        engine (okThenDeadDevice cmd resp) (fuel + 2) (.send cmd (.lit pat) true)
            { SB.init 0 false false with dev := 1, resetAttempted := true } =
          .ok (.bool false,
            { SB.init 0 false false with dev := 2, resetAttempted := true })) := by
  refine ⟨?_, ?_, ?_⟩
  · intro fuel cmd resp check hc hr
    exact send_once fuel cmd resp check hc hr
  · intro fuel cmd check strp
    exact send_dead_fresh fuel cmd check strp
  · intro fuel cmd resp pat hc hr
    exact send_okThenDead fuel cmd resp pat hc hr

/-- Witness for C1: the amended theorem applied at the command `t`, the
response `ok`, and the literal check `o`. -/
theorem c1_amended_witness :
    engine (onceDevice (bs "t") (bs "ok")) 2 (.send (bs "t") .raw true)
        (SB.init 0 false false) =
      .ok (sendInterp (bs "t") .raw (bs "ok"),
        { SB.init 0 false false with
            dev := 2, resetAttempted := true, resetCalls := 1 }) ∧
    engine deadDevice 2 (.send (bs "q") .byCmd true) (SB.init () false false) =
      .ok (.bool false,
        { SB.init () false false with resetAttempted := true, resetCalls := 1 }) ∧
    engine (okThenDeadDevice (bs "t") (bs "ok")) 2 (.send (bs "t") (.lit (bs "o")) true)
        (SB.init 0 false false) =
      .ok (.bool ((bs "o").isPrefixOf (bs "ok")),
        { SB.init 0 false false with dev := 1, resetAttempted := true }) :=
  ⟨c1_amended.1 0 (bs "t") (bs "ok") .raw (by decide) (by decide),
   c1_amended.2.1 0 (bs "q") .byCmd true,
   (c1_amended.2.2 0 (bs "t") (bs "ok") (bs "o") (by decide) (by decide)).1⟩

/-- Evaluation of a one-line scripted exchange for a single-character
command read raw: the response line is returned verbatim. -/
theorem send_script_single (fuel : Nat) (c : String) (m : Bytes)
    (hc : pyStrip (bs c) = bs c) (hl : ¬(bs c).length > 1) (hm : pyStrip m = m) :
    engine (scriptDevice []) (fuel + 1) (.send (bs c) .raw true)
        (SB.init [[m]] false false) =
      .ok (.str m, { SB.init ([] : List (List Bytes)) false false with buf := [] }) := by
  simp [engine, flushInput, uartWrite, readline, scriptDevice, SB.init, hc, hl, hm]

/-- C9, amended: `track_time()` returns `(-1,-1)` when the transport
yields no data, *provided the one-shot recovery cannot itself crash* (no
reset line configured — with one configured, the failed banner read
raises, see the counterexample); a payload whose length is not exactly 11
yields the distinct sentinel `False`; an 11-character payload
`"<current>:<total>"` parses into the pair of integers.  `track_size()`
behaves the same with width 21 and separator `/`. -/
theorem c9_amended :
    (∀ fuel : Nat,
        (engine deadDevice (fuel + 3) .trackTime (SB.init () false false)).map
            (fun r => r.1) = .ok (.pair (-1) (-1))) ∧
    (PyVal.bool false ≠ PyVal.pair (-1) (-1)) ∧
    (∀ (fuel : Nat) (m : Bytes), pyStrip m = m → m ≠ [] → m.length ≠ 11 →
        (engine (scriptDevice []) (fuel + 2) .trackTime
            (SB.init [[m]] false false)).map (fun r => r.1) = .ok (.bool false)) ∧
    (∀ (fuel : Nat) (d1 d2 : Bytes), allDigits d1 = true → allDigits d2 = true →
        d1 ≠ [] → d2 ≠ [] → d1.length + d2.length = 10 →
        (engine (scriptDevice []) (fuel + 2) .trackTime
            (SB.init [[d1 ++ ':' :: d2]] false false)).map (fun r => r.1) =
          .ok (.pair (digitsVal d1) (digitsVal d2))) ∧
    (∀ fuel : Nat,
        (engine deadDevice (fuel + 3) .trackSize (SB.init () false false)).map
            (fun r => r.1) = .ok (.pair (-1) (-1))) ∧
    (∀ (fuel : Nat) (m : Bytes), pyStrip m = m → m ≠ [] → m.length ≠ 21 →
        (engine (scriptDevice []) (fuel + 2) .trackSize
            (SB.init [[m]] false false)).map (fun r => r.1) = .ok (.bool false)) ∧
    (∀ (fuel : Nat) (d1 d2 : Bytes), allDigits d1 = true → allDigits d2 = true →
        d1 ≠ [] → d2 ≠ [] → d1.length + d2.length = 20 →
        (engine (scriptDevice []) (fuel + 2) .trackSize
            (SB.init [[d1 ++ '/' :: d2]] false false)).map (fun r => r.1) =
          .ok (.pair (digitsVal d1) (digitsVal d2))) := by
  have hne_pair : PyVal.bool false ≠ PyVal.pair (-1) (-1) := by decide
  have hsep : ∀ (c : Char) (d1 d2 : Bytes), allDigits d1 = true → allDigits d2 = true →
      d1 ≠ [] → d2 ≠ [] → isDigitB c = false →
      pyStrip (d1 ++ c :: d2) = d1 ++ c :: d2 ∧
        splitB c (d1 ++ c :: d2) = [d1, d2] ∧ (d1 ++ c :: d2).isEmpty = false := by
    intro c d1 d2 h1 h2 hn1 hn2 hcd
    refine ⟨pyStrip_glue c (fun ch hch => not_ws_of_digit (allDigits_mem h1 hch)) hn1
        h2 hn2, splitB_sep (not_mem_of_allDigits h1 hcd) (not_mem_of_allDigits h2 hcd),
        ?_⟩
    cases d1 with
    | nil => exact absurd rfl hn1
    | cons a t => rfl
  refine ⟨?_, hne_pair, ?_, ?_, ?_, ?_, ?_⟩
  · intro fuel
    rw [show fuel + 3 = (fuel + 2) + 1 from rfl, engine, send_dead_fresh]
    rfl
  · intro fuel m hm hne hlen
    have hemp : m.isEmpty = false := by
      cases m with
      | nil => exact absurd rfl hne
      | cons a t => rfl
    rw [show fuel + 2 = (fuel + 1) + 1 from rfl, engine,
        send_script_single fuel "t" m (by decide) (by decide) hm]
    simp [except_bind_ok, except_map_ok, pyTruthy, hemp, hlen]
  · intro fuel d1 d2 h1 h2 hn1 hn2 hlen
    obtain ⟨hstrip, hsplit, hemp⟩ := hsep ':' d1 d2 h1 h2 hn1 hn2 (by decide)
    have hlen' : (d1 ++ ':' :: d2).length = 11 := by
      simp [List.length_append]
      omega
    rw [show fuel + 2 = (fuel + 1) + 1 from rfl, engine,
        send_script_single fuel "t" (d1 ++ ':' :: d2) (by decide) (by decide) hstrip]
    simp [except_bind_ok, except_map_ok, pyTruthy, hemp, hlen', hsplit,
      pyInt_digits hn1 h1, pyInt_digits hn2 h2]
  · intro fuel
    rw [show fuel + 3 = (fuel + 2) + 1 from rfl, engine, send_dead_fresh]
    rfl
  · intro fuel m hm hne hlen
    have hemp : m.isEmpty = false := by
      cases m with
      | nil => exact absurd rfl hne
      | cons a t => rfl
    rw [show fuel + 2 = (fuel + 1) + 1 from rfl, engine,
        send_script_single fuel "s" m (by decide) (by decide) hm]
    simp [except_bind_ok, except_map_ok, pyTruthy, hemp, hlen]
  · intro fuel d1 d2 h1 h2 hn1 hn2 hlen
    obtain ⟨hstrip, hsplit, hemp⟩ := hsep '/' d1 d2 h1 h2 hn1 hn2 (by decide)
    have hlen' : (d1 ++ '/' :: d2).length = 21 := by
      simp [List.length_append]
      omega
    rw [show fuel + 2 = (fuel + 1) + 1 from rfl, engine,
        send_script_single fuel "s" (d1 ++ '/' :: d2) (by decide) (by decide) hstrip]
    simp [except_bind_ok, except_map_ok, pyTruthy, hemp, hlen', hsplit,
      pyInt_digits hn1 h1, pyInt_digits hn2 h2]

/-- Witness for C9: the amended theorem applied to a dead transport, a
7-character payload, and the payload `00012:00345` (and the size shapes). -/
theorem c9_amended_witness :
    (engine deadDevice 3 .trackTime (SB.init () false false)).map (fun r => r.1) =
        .ok (.pair (-1) (-1)) ∧
    (engine (scriptDevice []) 2 .trackTime
        (SB.init [[bs "123:456"]] false false)).map (fun r => r.1) =
      .ok (.bool false) ∧
    (engine (scriptDevice []) 2 .trackTime
        (SB.init [[bs "00012" ++ ':' :: bs "00345"]] false false)).map (fun r => r.1) =
      .ok (.pair (digitsVal (bs "00012")) (digitsVal (bs "00345"))) ∧
    (engine (scriptDevice []) 2 .trackSize
        (SB.init [[bs "0000000001" ++ '/' :: bs "0000000002"]] false false)).map
        (fun r => r.1) =
      .ok (.pair (digitsVal (bs "0000000001")) (digitsVal (bs "0000000002"))) :=
  ⟨c9_amended.1 0,
   c9_amended.2.2.1 0 (bs "123:456") (by decide) (by decide) (by decide),
   c9_amended.2.2.2.1 0 (bs "00012") (bs "00345") (by decide) (by decide) (by decide)
     (by decide) (by decide),
   c9_amended.2.2.2.2.2.2 0 (bs "0000000001") (bs "0000000002") (by decide) (by decide)
     (by decide) (by decide) (by decide)⟩

/-- The play-by-index command `#<i>` is strip-stable. -/
theorem pyStrip_hashCmd (i : Nat) :
    pyStrip (bs "#" ++ intToBytes (Int.ofNat i)) = bs "#" ++ intToBytes (Int.ofNat i) := by
  rcases (intToBytes (Int.ofNat i)).eq_nil_or_concat with h | ⟨L, e, hds⟩
  · exact absurd h (intToBytes_ofNat_ne_nil i)
  · have he : isWs e = false := by
      refine not_ws_of_digit (allDigits_mem (allDigits_intToBytes_ofNat i) ?_)
      rw [hds]
      simp [List.concat_eq_append]
    have hsh : bs "#" ++ intToBytes (Int.ofNat i) = '#' :: (L ++ [e]) := by
      rw [hds]
      simp [bs, List.concat_eq_append]
    rw [hsh, pyStrip_anchored (by decide) he]

/-- The play-by-index command is longer than one character, so
`_send_simple` gobbles one echoed line first. -/
theorem hashCmd_len (i : Nat) : (bs "#" ++ intToBytes (Int.ofNat i)).length > 1 := by
  have h := List.length_pos.mpr (intToBytes_ofNat_ne_nil i)
  have h1 : (bs "#").length = 1 := rfl
  rw [List.length_append, h1]
  omega

/-- C8.  `play(i)` for an index returns true exactly when the device
response starts with the literal `play`, and records `_cur_track := i`
only then; on any other response (`NoFile` included) it returns false and
leaves `_cur_track` unchanged. -/
theorem c8_play (fuel : Nat) (i : Nat) (r : Bytes) (ct : PyVal)
    (hr : pyStrip r = r) :
    ∃ s1,
      play (scriptDevice []) (fuel + 1) (.inl (Int.ofNat i))
          { SB.init [[bs "#" ++ intToBytes (Int.ofNat i), r]] false false with
              curTrack := ct } =
        .ok (.bool ((bs "play").isPrefixOf r), s1) ∧
      s1.curTrack =
        (if (bs "play").isPrefixOf r then PyVal.int (Int.ofNat i) else ct) := by
  have hsend :
      engine (scriptDevice []) (fuel + 1)
          (.send (bs "#" ++ intToBytes (Int.ofNat i)) (.lit (bs "play")) true)
          { SB.init [[bs "#" ++ intToBytes (Int.ofNat i), r]] false false with
              curTrack := ct } =
        .ok (.bool ((bs "play").isPrefixOf r),
          { SB.init ([] : List (List Bytes)) false false with
              curTrack := ct, resetAttempted := true }) := by
    have hl : (pyStrip (bs "#" ++ intToBytes (Int.ofNat i))).length > 1 := by
      rw [pyStrip_hashCmd i]
      exact hashCmd_len i
    simp only [engine, flushInput, uartWrite, readline, scriptDevice, SB.init, hr, hl]
    simp [hr]
  by_cases hp : (bs "play").isPrefixOf r
  · refine ⟨{ SB.init ([] : List (List Bytes)) false false with
        curTrack := .int (Int.ofNat i), resetAttempted := true }, ?_, by simp [hp]⟩
    simp only [play]
    rw [hsend, except_bind_ok]
    simp [pyTruthy, hp]
  · refine ⟨{ SB.init ([] : List (List Bytes)) false false with
        curTrack := ct, resetAttempted := true }, ?_, by simp [hp]⟩
    simp only [play]
    rw [hsend, except_bind_ok]
    simp [pyTruthy, hp]

/-- Witness for C8: an existing index answered `play\t0\ta` gives true and
records the track; an index past the catalog answered `NoFile` gives
false and leaves the current track (here `.none`) unchanged. -/
theorem c8_play_witness :
    (∃ s1,
        play (scriptDevice []) 1 (.inl (Int.ofNat 0))
            { SB.init [[bs "#" ++ intToBytes (Int.ofNat 0), bs "play\t0\ta"]]
                false false with curTrack := .none } =
          .ok (.bool ((bs "play").isPrefixOf (bs "play\t0\ta")), s1) ∧
        s1.curTrack =
          (if (bs "play").isPrefixOf (bs "play\t0\ta") then PyVal.int (Int.ofNat 0)
           else PyVal.none)) ∧
    (∃ s1,
        play (scriptDevice []) 1 (.inl (Int.ofNat 9))
            { SB.init [[bs "#" ++ intToBytes (Int.ofNat 9), bs "NoFile"]]
                false false with curTrack := .none } =
          .ok (.bool ((bs "play").isPrefixOf (bs "NoFile")), s1) ∧
        s1.curTrack =
          (if (bs "play").isPrefixOf (bs "NoFile") then PyVal.int (Int.ofNat 9)
           else PyVal.none)) :=
  ⟨c8_play 0 0 (bs "play\t0\ta") .none (by decide),
   c8_play 0 9 (bs "NoFile") .none (by decide)⟩

/-- C10.  With a built catalog of `fs.length` tracks, `file_name(n)`
returns `False` for every `n ≥ fs.length`, returns the track at Python's
negative offset for `-fs.length ≤ n < 0` (in particular `file_name(-1)`
is the last track's name), and `track_num(name)` returns `False` exactly
for the names absent from the `_track` map. -/
theorem c10_index_bounds (fs : List Bytes) (tr : List (Bytes × Int)) :
    (∀ n : Int, (fs.length : Int) ≤ n →
        fileName deadDevice 1 n (builtState fs tr) =
          .ok (.bool false, builtState fs tr)) ∧
    (∀ n : Int, -(fs.length : Int) ≤ n → n < 0 →
        ∃ b, fs.get? (n + fs.length).toNat = some b ∧
          fileName deadDevice 1 n (builtState fs tr) =
            .ok (.str b, builtState fs tr)) ∧
    (∀ h : fs ≠ [],
        fileName deadDevice 1 (-1) (builtState fs tr) =
          .ok (.str (fs.getLast h), builtState fs tr)) ∧
    (∀ nm : Bytes,
        (trackNum nm (builtState fs tr) = .bool false ↔ lookupTrack nm tr = none)) := by
  have hfile : ∀ n : Int, fileName deadDevice 1 n (builtState fs tr) =
      (match pyIndex fs n with
        | some b => .ok (.str b, builtState fs tr)
        | none => .ok (.bool false, builtState fs tr)) := by
    intro n
    simp [fileName, filesProp, builtState, SB.init, except_bind_ok]
  refine ⟨?_, ?_, ?_, ?_⟩
  · intro n hn
    rw [hfile n]
    have hnon : (0 : Int) ≤ n := le_trans (by positivity) hn
    have hbig : fs.length ≤ n.toNat := by omega
    rw [pyIndex, if_pos hnon, List.get?_eq_none.mpr hbig]
  · intro n h1 h2
    have hidx : pyIndex fs n = fs.get? (n + fs.length).toNat := by
      rw [pyIndex, if_neg (by omega)]
      simp only []
      rw [if_pos (by omega : (0 : Int) ≤ n + (fs.length : Int))]
    have hlt : (n + fs.length).toNat < fs.length := by omega
    refine ⟨fs.get ⟨(n + fs.length).toNat, hlt⟩, List.get?_eq_get hlt, ?_⟩
    rw [hfile n, hidx, List.get?_eq_get hlt]
  · intro h
    have hlen : 0 < fs.length := List.length_pos.mpr h
    have hidx : pyIndex fs (-1) = fs.get? ((-1 : Int) + fs.length).toNat := by
      rw [pyIndex, if_neg (by omega)]
      simp only []
      rw [if_pos (by omega : (0 : Int) ≤ -1 + (fs.length : Int))]
    have hlt : ((-1 : Int) + fs.length).toNat < fs.length := by omega
    have htn : ((-1 : Int) + fs.length).toNat = fs.length - 1 := by omega
    have hgl : fs.get ⟨((-1 : Int) + fs.length).toNat, hlt⟩ = fs.getLast h := by
      rw [List.getLast_eq_get]
      exact congrArg fs.get (Fin.ext htn)
    rw [hfile (-1), hidx, List.get?_eq_get hlt, hgl]
  · intro nm
    cases h : lookupTrack nm tr with
    | none => simp [trackNum, builtState, SB.init, h]
    | some v => simp [trackNum, builtState, SB.init, h]

/-- Witness for C10: applied to the catalog `[x, y]` with map `x ↦ 0`. -/
theorem c10_index_bounds_witness :
    fileName deadDevice 1 5 (builtState [bs "x", bs "y"] [(bs "x", 0)]) =
        .ok (.bool false, builtState [bs "x", bs "y"] [(bs "x", 0)]) ∧
    fileName deadDevice 1 (-1) (builtState [bs "x", bs "y"] [(bs "x", 0)]) =
        .ok (.str ([bs "x", bs "y"].getLast (by decide)),
          builtState [bs "x", bs "y"] [(bs "x", 0)]) ∧
    (trackNum (bs "z") (builtState [bs "x", bs "y"] [(bs "x", 0)]) = .bool false ↔
      lookupTrack (bs "z") [(bs "x", 0)] = none) :=
  ⟨(c10_index_bounds [bs "x", bs "y"] [(bs "x", 0)]).1 5 (by decide),
   (c10_index_bounds [bs "x", bs "y"] [(bs "x", 0)]).2.2.1 (by decide),
   (c10_index_bounds [bs "x", bs "y"] [(bs "x", 0)]).2.2.2 (bs "z")⟩

/-- C5.  Building the catalog with the Direct (`L` listing) strategy from
any listing of clean, pairwise distinct names yields a catalog in which
`track_num(file_name(i)) == i` for every valid index `i`: `files` is the
listed name sequence, `file_name(i)` returns the `i`-th name and
`track_num` maps it back to `i`. -/
theorem c5_round_trip (ps : List (Bytes × Nat)) (hcl : ∀ p ∈ ps, cleanName p.1)
    (hnd : (ps.map Prod.fst).Nodup) :
    ∃ s1 : SB (List (List Bytes)),
      filesProp (scriptDevice []) 1 (SB.init [ps.map encodeLine] false false) =
        .ok (ps.map Prod.fst, s1) ∧
      ∀ (i : Nat) (nm : Bytes), (ps.map Prod.fst).get? i = some nm →
        fileName (scriptDevice []) 1 (Int.ofNat i) s1 = .ok (.str nm, s1) ∧
        trackNum nm s1 = .int (Int.ofNat i) := by
  refine ⟨{ SB.init ([] : List (List Bytes)) false false with
      files := some (ps.map Prod.fst),
      sizes := some (ps.map fun p => ((p.2 : Nat) : Int)),
      track := (indexedFrom 0 (ps.map Prod.fst)).reverse }, ?_, ?_⟩
  · simp only [filesProp, runGetFiles, getFilesDirect, flushInput, uartWrite,
      scriptDevice, SB.init]
    rw [show ([] : List Bytes) ++ ps.map encodeLine = ps.map encodeLine from by simp]
    rw [directLoop_spec ps hcl 0 [] [] []]
    simp [except_bind_ok]
  · intro i nm hget
    constructor
    · simp only [fileName, filesProp, except_bind_ok]
      rw [pyIndex_ofNat, hget]
    · have hlk := lookup_indexedFrom hnd 0 [] i nm hget
      rw [List.append_nil] at hlk
      simp [trackNum, hlk]

/-! ## Volume stepping lemmas (C4) -/

theorem upStep_nonneg {v : Int} (h : 0 ≤ v) : 0 ≤ upStep v := by
  unfold upStep
  split <;> omega

theorem upStep_le {v : Int} (h : v ≤ 204) : upStep v ≤ 204 := by
  unfold upStep
  split <;> omega

theorem downStep_nonneg (v : Int) : 0 ≤ downStep v := by
  unfold downStep
  split <;> omega

theorem downStep_le {v : Int} (h1 : 0 ≤ v) (h2 : v ≤ 204) : downStep v ≤ 204 := by
  unfold downStep
  split <;> omega

/-- One `+` exchange with the volume device: the level steps up and its
echo is read back verbatim. -/
theorem send_plus_step (fuel : Nat) (s : SB Int) (h : 0 ≤ s.dev) :
    engine volDevice (fuel + 1) (.send (bs "+") .raw true) s =
      .ok (.str (intToBytes (upStep s.dev)),
        { s with buf := [], dev := upStep s.dev }) := by
  have hstrip : pyStrip (intToBytes (upStep s.dev)) = intToBytes (upStep s.dev) :=
    pyStrip_digits (allDigits_intToBytes_nonneg (upStep_nonneg h))
  have hc : pyStrip (bs "+") = bs "+" := by decide
  have hl : ¬((bs "+").length > 1) := by decide
  simp [engine, flushInput, uartWrite, readline, volDevice, hstrip, hc, hl]

/-- One `-` exchange with the volume device. -/
theorem send_minus_step (fuel : Nat) (s : SB Int) :
    engine volDevice (fuel + 1) (.send (bs "-") .raw true) s =
      .ok (.str (intToBytes (downStep s.dev)),
        { s with buf := [], dev := downStep s.dev }) := by
  have hstrip : pyStrip (intToBytes (downStep s.dev)) = intToBytes (downStep s.dev) :=
    pyStrip_digits (allDigits_intToBytes_nonneg (downStep_nonneg s.dev))
  have hc : pyStrip (bs "-") = bs "-" := by decide
  have hl : ¬((bs "-").length > 1) := by decide
  have hne : ¬(bs "-" ++ [nlc] = bs "+" ++ [nlc]) := by decide
  simp [engine, flushInput, uartWrite, readline, volDevice, hstrip, hc, hl, hne]

/-- One-step unfolding of the `vol_up` stepping loop. -/
theorem volUpLoop_unfold (D : Device δ) (f : Nat) (t cur : Int) (s : SB δ)
    (h : s.curVol = some cur) :
    engine D (f + 1) (.volUpLoop t) s =
      (if t > cur then
        (engine D f (.send (bs "+") .raw true) s) >>= fun r =>
          match pyIntVal r.1 with
          | .error e => .error e
          | .ok n => engine D f (.volUpLoop t) { r.2 with curVol := some n }
      else .ok (.int cur, s)) := by
  rw [engine, h]

/-- One-step unfolding of the `vol_down` stepping loop. -/
theorem volDownLoop_unfold (D : Device δ) (f : Nat) (t cur : Int) (s : SB δ)
    (h : s.curVol = some cur) :
    engine D (f + 1) (.volDownLoop t) s =
      (if t < cur then
        (engine D f (.send (bs "-") .raw true) s) >>= fun r =>
          match pyIntVal r.1 with
          | .error e => .error e
          | .ok n => engine D f (.volDownLoop t) { r.2 with curVol := some n }
      else .ok (.int cur, s)) := by
  rw [engine, h]

/-- The `vol` getter when the cached volume is known. -/
theorem volGet_unfold_known (D : Device δ) (f : Nat) (s : SB δ) (v : Int)
    (h : s.curVol = some v) :
    engine D (f + 1) .volGet s = .ok (.int v, s) := by
  rw [engine, h]

/-- Unfolding of the `vol` setter for an integer target. -/
theorem volSet_unfold_some (D : Device δ) (f : Nat) (n : Int) (s : SB δ) :
    engine D (f + 1) (.volSet (some n)) s =
      (engine D f .volGet s) >>= fun r =>
        match r.1 with
        | .int cur =>
            if n > cur then
              (engine D f (.volUp (some n)) r.2) >>= fun r2 => .ok (.none, r2.2)
            else if n < cur then
              (engine D f (.volDown (some n)) r.2) >>= fun r2 => .ok (.none, r2.2)
            else .ok (.none, r.2)
        | _ => .error .typeError := by
  rw [engine]

/-- Unfolding of `vol_up` with a target: clamp to `MAX_VOL`, seed the
cache below the minimum, and enter the stepping loop. -/
theorem volUp_unfold_target (D : Device δ) (f : Nat) (v0 : Int) (s : SB δ) :
    engine D (f + 1) (.volUp (some v0)) s =
      engine D f (.volUpLoop (if v0 > maxVol then maxVol else v0))
        { s with curVol := some (minVol - 1) } := by
  rw [engine]

/-- Unfolding of `vol_down` with a target. -/
theorem volDown_unfold_target (D : Device δ) (f : Nat) (v0 : Int) (s : SB δ) :
    engine D (f + 1) (.volDown (some v0)) s =
      engine D f (.volDownLoop (if v0 < minVol then minVol else v0))
        { s with curVol := some (maxVol + 1) } := by
  rw [engine]

/-- The `while vol > self._cur_vol` loop of `vol_up` on the volume
device: it terminates with the first device-reported level that reaches
the target (or immediately if the cached level already does), and the
cache always holds the last device-reported value. -/
theorem volUpLoop_spec :
    ∀ (fuel : Nat) (t cur : Int) (s : SB Int),
      s.curVol = some cur → 0 ≤ s.dev → s.dev ≤ 204 → t ≤ 204 →
      105 ≤ fuel + s.dev.toNat / 2 →
      ∃ w s1, engine volDevice fuel (.volUpLoop t) s = .ok (.int w, s1) ∧
        ((t ≤ cur ∧ w = cur ∧ s1 = s) ∨
         (cur < t ∧ t ≤ w ∧ 0 ≤ w ∧ w ≤ 204 ∧
           s1 = { s with buf := [], dev := w, curVol := some w })) := by
  intro fuel
  induction fuel with
  | zero =>
      intro t cur s _ hd1 hd2 _ hf
      exfalso
      omega
  | succ f ih =>
      intro t cur s hcv hd1 hd2 ht hf
      rw [volUpLoop_unfold volDevice f t cur s hcv]
      by_cases hc : t > cur
      · rw [if_pos hc]
        obtain ⟨g, rfl⟩ : ∃ g, f = g + 1 := ⟨f - 1, by omega⟩
        simp only [send_plus_step g s hd1, except_bind_ok, pyIntVal,
          pyInt_intToBytes_nonneg (upStep_nonneg hd1)]
        by_cases hsat : s.dev + 2 > 204
        · have hu : upStep s.dev = 204 := by
            unfold upStep
            rw [if_pos hsat]
          rw [volUpLoop_unfold volDevice g t (upStep s.dev) _ rfl, hu,
            if_neg (by omega : ¬(t > (204 : Int)))]
          exact ⟨204, _, rfl, Or.inr ⟨hc, by omega, by omega, le_refl 204, rfl⟩⟩
        · have hu : upStep s.dev = s.dev + 2 := by
            unfold upStep
            rw [if_neg hsat]
          obtain ⟨w, s1, heq, hcase⟩ :=
            ih t (upStep s.dev)
              { s with buf := [], dev := upStep s.dev, curVol := some (upStep s.dev) }
              rfl (by simpa using upStep_nonneg hd1) (by simpa using upStep_le hd2)
              ht (by simp only [hu]; omega)
          refine ⟨w, s1, heq, Or.inr ?_⟩
          rcases hcase with ⟨hle, hw, hs⟩ | ⟨hlt, hw1, hw2, hw3, hs⟩
          · subst hw
            exact ⟨hc, hle, upStep_nonneg hd1, upStep_le hd2, by rw [hs]⟩
          · exact ⟨hc, hw1, hw2, hw3, by rw [hs]⟩
      · rw [if_neg hc]
        exact ⟨cur, s, rfl, Or.inl ⟨by omega, rfl, rfl⟩⟩

/-- The `while vol < self._cur_vol` loop of `vol_down` on the volume
device. -/
theorem volDownLoop_spec :
    ∀ (fuel : Nat) (t cur : Int) (s : SB Int),
      s.curVol = some cur → 0 ≤ s.dev → s.dev ≤ 204 → 0 ≤ t →
      105 ≤ fuel + (204 - s.dev).toNat / 2 →
      ∃ w s1, engine volDevice fuel (.volDownLoop t) s = .ok (.int w, s1) ∧
        ((cur ≤ t ∧ w = cur ∧ s1 = s) ∨
         (t < cur ∧ w ≤ t ∧ 0 ≤ w ∧ w ≤ 204 ∧
           s1 = { s with buf := [], dev := w, curVol := some w })) := by
  intro fuel
  induction fuel with
  | zero =>
      intro t cur s _ hd1 hd2 _ hf
      exfalso
      omega
  | succ f ih =>
      intro t cur s hcv hd1 hd2 ht hf
      rw [volDownLoop_unfold volDevice f t cur s hcv]
      by_cases hc : t < cur
      · rw [if_pos hc]
        obtain ⟨g, rfl⟩ : ∃ g, f = g + 1 := ⟨f - 1, by omega⟩
        simp only [send_minus_step g s, except_bind_ok, pyIntVal,
          pyInt_intToBytes_nonneg (downStep_nonneg s.dev)]
        by_cases hsat : s.dev - 2 < 0
        · have hu : downStep s.dev = 0 := by
            unfold downStep
            rw [if_pos hsat]
          rw [volDownLoop_unfold volDevice g t (downStep s.dev) _ rfl, hu,
            if_neg (by omega : ¬(t < (0 : Int)))]
          exact ⟨0, _, rfl, Or.inr ⟨hc, by omega, le_refl 0, by omega, rfl⟩⟩
        · have hu : downStep s.dev = s.dev - 2 := by
            unfold downStep
            rw [if_neg hsat]
          obtain ⟨w, s1, heq, hcase⟩ :=
            ih t (downStep s.dev)
              { s with buf := [], dev := downStep s.dev, curVol := some (downStep s.dev) }
              rfl (by simpa using downStep_nonneg s.dev)
              (by simpa using downStep_le hd1 hd2)
              ht (by simp only [hu]; omega)
          refine ⟨w, s1, heq, Or.inr ?_⟩
          rcases hcase with ⟨hle, hw, hs⟩ | ⟨hlt, hw1, hw2, hw3, hs⟩
          · subst hw
            exact ⟨hc, hle, downStep_nonneg s.dev, downStep_le hd1 hd2, by rw [hs]⟩
          · exact ⟨hc, hw1, hw2, hw3, by rw [hs]⟩
      · rw [if_neg hc]
        exact ⟨cur, s, rfl, Or.inl ⟨by omega, rfl, rfl⟩⟩

/-- The `vol` setter with a known cached level `c0`: compare the target
against the getter's value and dispatch to `vol_up`/`vol_down`. -/
theorem volSet_known (D : Device δ) (f : Nat) (n c0 : Int) (s : SB δ)
    (h : s.curVol = some c0) :
    engine D ((f + 1) + 1) (.volSet (some n)) s =
      (if n > c0 then
        (engine D (f + 1) (.volUp (some n)) s) >>= fun r2 => .ok (.none, r2.2)
      else if n < c0 then
        (engine D (f + 1) (.volDown (some n)) s) >>= fun r2 => .ok (.none, r2.2)
      else .ok (.none, s)) := by
  rw [volSet_unfold_some D (f + 1) n s, volGet_unfold_known D f s c0 h]
  rfl

/-- C4.  Setting the volume on the stepping device from a known cached
level `c0`: the target is clamped into `[0, 204]`, the device is stepped
up or down with the loop terminating at the first device-reported level
that crosses the clamped target, the final cached volume always equals
the device's level (the last device-reported value), and in particular
`set_volume(1000)` ends at 204 and `set_volume(-5)` ends at 0. -/
theorem c4_set_volume (t c0 : Int) (fuel : Nat) (h0 : 0 ≤ c0) (h204 : c0 ≤ 204)
    (hf : 110 ≤ fuel) :
    ∃ w s1,
      engine volDevice fuel (.volSet (some t))
          { SB.init c0 false false with curVol := some c0 } =
        .ok (.none, s1) ∧
      s1.curVol = some w ∧ s1.dev = w ∧ 0 ≤ w ∧ w ≤ 204 ∧
      (c0 < t → min t 204 ≤ w) ∧ (t < c0 → w ≤ max t 0) ∧ (t = c0 → w = c0) ∧
      (t = 1000 → w = 204) ∧ (t = -5 → w = 0) := by
  obtain ⟨f, rfl⟩ : ∃ f, fuel = ((f + 1) + 1) + 1 := ⟨fuel - 3, by omega⟩
  set s0 : SB Int := { SB.init c0 false false with curVol := some c0 } with hs0
  have hcv : s0.curVol = some c0 := rfl
  have hdev : s0.dev = c0 := rfl
  rw [volSet_known volDevice (f + 1) t c0 s0 hcv]
  by_cases hgt : t > c0
  · rw [if_pos hgt]
    set vv : Int := if t > maxVol then maxVol else t with hvv
    have hvfacts : vv ≤ 204 ∧ min t 204 ≤ vv ∧ 0 < vv := by
      rw [hvv]
      unfold maxVol
      split <;> omega
    obtain ⟨w, s1, heq, hcase⟩ :=
      volUpLoop_spec (f + 1) vv (minVol - 1) { s0 with curVol := some (minVol - 1) }
        rfl (by simpa [hdev] using h0) (by simpa [hdev] using h204) hvfacts.1
        (by simp only [show ({ s0 with curVol := some (minVol - 1) } : SB Int).dev =
              s0.dev from rfl, hdev]
            omega)
    have hall : engine volDevice ((f + 1) + 1) (.volUp (some t)) s0 = .ok (.int w, s1) := by
      rw [volUp_unfold_target volDevice (f + 1) t s0, ← hvv]
      exact heq
    rcases hcase with ⟨hle, hw, _⟩ | ⟨_, hw1, hw2, hw3, hs⟩
    · exfalso
      unfold minVol at hle
      omega
    · refine ⟨w, s1, by rw [hall]; rfl, by rw [hs], by rw [hs], hw2, hw3, ?_, ?_, ?_, ?_, ?_⟩
      · intro _
        omega
      · intro hlt2
        omega
      · intro heq0
        omega
      · intro h1000
        subst h1000
        have hv4 : vv = 204 := by
          rw [hvv]
          unfold maxVol
          rw [if_pos (by omega)]
        omega
      · intro hm5
        subst hm5
        omega
  · by_cases hlt : t < c0
    · rw [if_neg hgt, if_pos hlt]
      set vv : Int := if t < minVol then minVol else t with hvv
      have hvfacts : 0 ≤ vv ∧ vv ≤ max t 0 ∧ vv ≤ 204 := by
        rw [hvv]
        unfold minVol
        split <;> omega
      obtain ⟨w, s1, heq, hcase⟩ :=
        volDownLoop_spec (f + 1) vv (maxVol + 1) { s0 with curVol := some (maxVol + 1) }
          rfl (by simpa [hdev] using h0) (by simpa [hdev] using h204) hvfacts.1
          (by simp only [show ({ s0 with curVol := some (maxVol + 1) } : SB Int).dev =
                s0.dev from rfl, hdev]
              omega)
      have hall : engine volDevice ((f + 1) + 1) (.volDown (some t)) s0 =
          .ok (.int w, s1) := by
        rw [volDown_unfold_target volDevice (f + 1) t s0, ← hvv]
        exact heq
      rcases hcase with ⟨hle, hw, _⟩ | ⟨_, hw1, hw2, hw3, hs⟩
      · exfalso
        unfold maxVol at hle
        omega
      · refine ⟨w, s1, by rw [hall]; rfl, by rw [hs], by rw [hs], hw2, hw3, ?_, ?_, ?_, ?_, ?_⟩
        · intro hgt2
          omega
        · intro _
          omega
        · intro heq0
          omega
        · intro h1000
          omega
        · intro hm5
          subst hm5
          have hv0 : vv = 0 := by
            rw [hvv]
            unfold minVol
            rw [if_pos (by omega)]
          omega
    · rw [if_neg hgt, if_neg hlt]
      have heq0 : t = c0 := by omega
      refine ⟨c0, s0, rfl, hcv, hdev, h0, h204, ?_, ?_, ?_, ?_, ?_⟩
      · intro h
        omega
      · intro h
        omega
      · intro _
        rfl
      · intro h1000
        omega
      · intro hm5
        omega

/-- Witness for C4: `set_volume(1000)` from cached level 100 ends at 204
on the device and in the cache. -/
theorem c4_set_volume_witness :
    ∃ w s1,
      engine volDevice 110 (.volSet (some 1000))
          { SB.init (100 : Int) false false with curVol := some 100 } =
        .ok (.none, s1) ∧
      s1.curVol = some w ∧ s1.dev = w ∧ 0 ≤ w ∧ w ≤ 204 ∧
      ((100 : Int) < 1000 → min 1000 204 ≤ w) ∧ ((1000 : Int) < 100 → w ≤ max 1000 0) ∧
      ((1000 : Int) = 100 → w = 100) ∧
      ((1000 : Int) = 1000 → w = 204) ∧ ((1000 : Int) = -5 → w = 0) :=
  c4_set_volume 1000 100 110 (by omega) (by omega) (by omega)

/-- Witness for C5: the round-trip theorem applied to the two-track
listing `a` (size 1) and `b` (size 2). -/
theorem c5_round_trip_witness :
    ∃ s1 : SB (List (List Bytes)),
      filesProp (scriptDevice []) 1
          (SB.init [[(bs "a", 1), (bs "b", 2)].map encodeLine] false false) =
        .ok ([(bs "a", (1 : Nat)), (bs "b", 2)].map Prod.fst, s1) ∧
      ∀ (i : Nat) (nm : Bytes),
        ([(bs "a", (1 : Nat)), (bs "b", 2)].map Prod.fst).get? i = some nm →
        fileName (scriptDevice []) 1 (Int.ofNat i) s1 = .ok (.str nm, s1) ∧
        trackNum nm s1 = .int (Int.ofNat i) :=
  c5_round_trip [(bs "a", 1), (bs "b", 2)] (by decide) (by decide)

end AdaSound
